import Mathlib

/-!
Verification of the WindBorne finance-automation pipeline.

Shallow embedding of the pipeline in `src/main.py` (fetching, normalization,
idempotent upsert), the flat export in `src/export_data.py`, and the wide-form
reshaping and metric derivation in `src/dashboard.py`.

Modelling conventions:
  * JSON values arriving from the statement API are modelled by `JVal`
    (null, string, integer, or an inert composite that `int()` cannot coerce).
  * A per-period report (a Python dict) is an association list of field
    name/value pairs; dict-key lookup that can raise `KeyError` is modelled
    with `Except`.
  * Machine/database integers are `Int`; pandas floating-point columns are
    modelled over `ℚ` (the epsilon substitution `1e-9` becomes `1/10^9`).
  * The database table behind the `ON CONFLICT ... DO NOTHING` upsert is a
    list of rows; the upsert folds over the incoming batch, skipping any
    record whose (company, statement type, period, metric name) key is
    already present — exactly the semantics of the SQL statement in
    `transform_and_load`.
  * HTTP fetches are oracles `String → Nat → Option Payload` giving, for a
    statement kind and an attempt number, either a decoded JSON body or
    `none` for a non-2xx response (where `raise_for_status` raises).
    Wall-clock sleeping is outside the embedding; the 60-second throttle
    cooldown is recorded as an explicit effect list.
-/

namespace Pipeline

/-- A JSON scalar as seen by `transform_and_load`: `null`, a string, an
integer, or some other composite value on which `int()` raises `TypeError`. -/
inductive JVal where
  | null : JVal
  | str : String → JVal
  | num : Int → JVal
  | other : JVal
deriving DecidableEq, Repr

/-- One annual report object: a Python dict, as an association list of
field name / value pairs. -/
abbrev Report := List (String × JVal)

/-- The decoded body of one statement API response.  `information?` models the
optional `Information` field, `errorMessage?` the optional `Error Message`
field, and `annualReports?` the optional `annualReports` collection. -/
structure Payload where
  information? : Option String
  errorMessage? : Option String
  annualReports? : Option (List Report)
deriving DecidableEq, Repr

/-- Errors raised by dict access during normalization: `keyError` models a
Python `KeyError` (missing `fiscalDateEnding`), `typeError` a sort-comparison
`TypeError` on a non-string date value. -/
inductive NormError where
  | keyError : NormError
  | typeError : NormError
deriving DecidableEq, Repr

/-- Python's lexicographic string comparison, code point by code point:
the order `sorted` uses on the `fiscalDateEnding` keys and the order the
dataframe sort uses on tickers and dates. -/
def pyLe (a b : String) : Prop := a.data ≤ b.data

/-- Strict version of `pyLe`. -/
def pyLt (a b : String) : Prop := a.data < b.data

instance : DecidableRel pyLe := fun a b =>
  inferInstanceAs (Decidable (a.data ≤ b.data))

instance : DecidableRel pyLt := fun a b =>
  inferInstanceAs (Decidable (a.data < b.data))

/-- Decimal digit run, the core of Python's `int(str)`. -/
def parseDigits : List Char → Option Nat
  | [] => none
  | cs =>
    if cs.all fun c => c.isDigit then
      some (cs.foldl (fun n c => n * 10 + (c.toNat - 48)) 0)
    else none

/-- Python's `int(str)` on the payload values: an optional sign followed by
decimal digits, anything else a `ValueError` (the API's numeric fields are
plain signed decimal strings). -/
def pyInt (s : String) : Option Int :=
  match s.data with
  | '-' :: cs => (parseDigits cs).map fun n => -(n : Int)
  | '+' :: cs => (parseDigits cs).map fun n => (n : Int)
  | cs => (parseDigits cs).map fun n => (n : Int)

/-- Coercion `int(value)` under Python's `try/except (ValueError, TypeError)`:
integer passes through, a string is parsed, `null` and composites fail. -/
def coerceInt : JVal → Option Int
  | .num n => some n
  | .str s => pyInt s
  | .null => none
  | .other => none

/-- The sort-key extraction `x['fiscalDateEnding']` from
`src/main.py:86`: raises `KeyError` when the field is missing. -/
def getDate (r : Report) : Except NormError String :=
  match r.lookup "fiscalDateEnding" with
  | some (.str s) => Except.ok s
  | some _ => Except.error NormError.typeError
  | none => Except.error NormError.keyError

/-- One normalized fact destined for the `financial_statements` table
(`src/main.py:95-101`). -/
structure StatementRecord where
  company_id : Nat
  statement_type : String
  fiscal_date_ending : String
  metric_name : String
  metric_value : Int
deriving DecidableEq, Repr

/-- The uniqueness key of `financial_statements`:
`UNIQUE(company_id, statement_type, fiscal_date_ending, metric_name)`
(`src/main.py:49`). -/
def keyOf (r : StatementRecord) : Nat × String × String × String :=
  (r.company_id, r.statement_type, r.fiscal_date_ending, r.metric_name)

/-- The descending sort relation used at `src/main.py:86`
(`sorted(..., key=lambda x: x['fiscalDateEnding'], reverse=True)`),
over reports paired with their extracted date key. -/
def dateDesc (a b : String × Report) : Prop := pyLe b.1 a.1

instance : DecidableRel dateDesc := fun a b =>
  inferInstanceAs (Decidable (pyLe b.1 a.1))

instance : IsTotal (String × Report) dateDesc :=
  ⟨fun a b => (le_total b.1.data a.1.data).imp id id⟩

instance : IsTrans (String × Report) dateDesc :=
  ⟨fun _ _ _ hab hbc => le_trans hbc hab⟩

/-- The slice `sorted(data["annualReports"], key=..., reverse=True)[:3]`
(`src/main.py:86`): keep only the three most recent periods. -/
def retainReports (keyed : List (String × Report)) : List (String × Report) :=
  (List.insertionSort dateDesc keyed).take 3

/-- The inner field loop of `transform_and_load` (`src/main.py:91-103`):
for every field of one retained report except the date itself, skip `null`
and the `"None"` sentinel, coerce to an integer, and silently drop the
single field on coercion failure. -/
def normalizeReport (companyId : Nat) (stype : String) (fiscalDate : String)
    (r : Report) : List StatementRecord :=
  r.filterMap fun kv =>
    if kv.1 = "fiscalDateEnding" then none
    else if kv.2 = JVal.null then none
    else if kv.2 = JVal.str "None" then none
    else match coerceInt kv.2 with
      | some n => some ⟨companyId, stype, fiscalDate, kv.1, n⟩
      | none => none

/-- Pair each report with its extracted sort key, as Python's `sorted`
evaluates the key function on every element (`src/main.py:86`). -/
def keyReport (r : Report) : Except NormError (String × Report) :=
  (getDate r).map fun d => (d, r)

/-- The record-building half of `transform_and_load` (`src/main.py:81-103`):
a missing `annualReports` collection yields zero records; otherwise sort the
reports by period-end date descending, keep the newest three, and flatten
each retained report's surviving fields into `StatementRecord`s.  A report
without `fiscalDateEnding` makes the sort-key extraction raise. -/
def normalize (companyId : Nat) (stype : String) (payload : Payload) :
    Except NormError (List StatementRecord) :=
  match payload.annualReports? with
  | none => Except.ok []
  | some reports =>
    match reports.mapM keyReport with
    | Except.error e => Except.error e
    | Except.ok keyed =>
      Except.ok ((retainReports keyed).flatMap fun dr =>
        normalizeReport companyId stype dr.1 dr.2)

/-- The `ON CONFLICT (company_id, statement_type, fiscal_date_ending,
metric_name) DO NOTHING` upsert of `src/main.py:113-119`: each incoming row
is inserted unless its uniqueness key is already present in the table
(including keys inserted earlier in the same batch). -/
def upsert (store : List StatementRecord) (records : List StatementRecord) :
    List StatementRecord :=
  records.foldl
    (fun s r => if keyOf r ∈ s.map keyOf then s else s ++ [r]) store

/-- The `result.rowcount` returned by `transform_and_load` (`src/main.py:119-120`):
the number of rows actually inserted. -/
def upsertCount (store : List StatementRecord)
    (records : List StatementRecord) : Nat :=
  (upsert store records).length - store.length

/-- Lookup of a uniqueness key: the stored row holding that key, if any. -/
def findByKey (store : List StatementRecord)
    (k : Nat × String × String × String) : Option StatementRecord :=
  store.find? fun x => decide (keyOf x = k)

/-! The main pipeline loop (`src/main.py:122-169`).

`fetch_financial_statement` performs an HTTP GET and calls
`raise_for_status()` (`src/main.py:70-77`): a non-2xx response raises an
exception that `main` never catches.  A fetch is modelled as an oracle
`String → Nat → Option Payload` from (statement kind, attempt number) to a
decoded body, `none` standing for the raised `requests.HTTPError`. -/

/-- Errors that escape the processing of one company in `main`:
a network/HTTP failure labelled with entity and statement kind, or an
uncaught normalization error (Python `KeyError`/`TypeError`). -/
inductive RunError where
  | fetchFailure (ticker kind : String) : RunError
  | normFailure (ticker kind : String) (e : NormError) : RunError
deriving DecidableEq, Repr

/-- The throttle detection at `src/main.py:155`:
`'Information' in data and 'API call frequency' in data['Information']`. -/
def isThrottle (p : Payload) : Bool :=
  match p.information? with
  | some s => decide ("API call frequency".toList <:+: s.toList)
  | none => false

/-- Lines 155-158 of `src/main.py`: on a throttle signal, sleep 60 seconds
and refetch the same call once; otherwise keep the first body.  Returns the
body to use (or a failure if the refetch raises) together with the list of
back-off sleeps performed. -/
def throttleStep (d0 : Payload) (refetch : Option Payload) :
    Except Unit Payload × List Nat :=
  if isThrottle d0 then
    (match refetch with
      | some d => Except.ok d
      | none => Except.error (), [60])
  else (Except.ok d0, [])

/-- One iteration of the `for statement_type, data in statements.items()`
loop (`src/main.py:153-166`): throttle-retry, then, when the body carries
`annualReports`, normalize and upsert, accumulating the inserted-row count.
The fetch oracle is consulted at attempt index 1 for the single retry. -/
def stepStatement (fetch : String → Nat → Option Payload) (cid : Nat)
    (ticker : String) (acc : List StatementRecord × Nat)
    (kd : String × Payload) : Except RunError (List StatementRecord × Nat) := do
  let data ← match (throttleStep kd.2 (fetch kd.1 1)).1 with
    | Except.ok d => pure d
    | Except.error _ => throw (RunError.fetchFailure ticker kd.1)
  if data.annualReports?.isSome then
    match normalize cid kd.1 data with
    | Except.ok recs =>
      pure (upsert acc.1 recs, acc.2 + upsertCount acc.1 recs)
    | Except.error e => throw (RunError.normFailure ticker kd.1 e)
  else pure acc

/-- The statement kinds fetched for every company, in the insertion order of
the `statements` dict (`src/main.py:147-151`). -/
def statementKinds : List String :=
  ["INCOME_STATEMENT", "BALANCE_SHEET", "CASH_FLOW"]

/-- Per-company body of the `for ticker in COMPANIES` loop
(`src/main.py:128-166`), with the entity row already created (its id is
given): fetch the three statements — any `raise_for_status` exception
propagates — then run the statement loop. -/
def processCompany (fetch : String → Nat → Option Payload) (cid : Nat)
    (ticker : String) (store : List StatementRecord) :
    Except RunError (List StatementRecord × Nat) := do
  let sts ← statementKinds.mapM fun k =>
    match fetch k 0 with
    | some d => pure (k, d)
    | none => throw (RunError.fetchFailure ticker k)
  sts.foldlM (stepStatement fetch cid ticker) (store, 0)

/-- The whole run of `main` over the company list (`src/main.py:122-169`),
threading the store and the `total_rows_loaded` counter.  The fetch oracle
additionally takes the ticker.  Any exception escaping one company's
processing aborts the run. -/
def runPipeline (fetch : String → String → Nat → Option Payload)
    (companies : List (Nat × String)) :
    Except RunError (List StatementRecord × Nat) :=
  companies.foldlM
    (fun acc c => do
      let (store, total) ← processCompany (fetch c.2) c.1 c.2 acc.1
      pure (store, acc.2 + total))
    ([], 0)

/-! Flat export (`src/export_data.py`) and the dashboard
(`src/dashboard.py`). -/

/-- A row of the `companies` table (`src/main.py:31-35`). -/
structure Company where
  id : Nat
  ticker : String
  name : String
deriving DecidableEq, Repr

/-- One row of `financial_data.csv` as produced by the export query
(`src/export_data.py:18-27`): the join drops the statement kind. -/
structure LongRow where
  ticker : String
  company_name : String
  fiscal_date_ending : String
  metric_name : String
  metric_value : Int
deriving DecidableEq, Repr

/-- The export query of `src/export_data.py:18-27`: join
`financial_statements` with `companies` on the company id and keep
`(ticker, name, fiscal_date_ending, metric_name, metric_value)`. -/
def exportData (companies : List Company) (store : List StatementRecord) :
    List LongRow :=
  store.flatMap fun fs =>
    (companies.filter fun c => decide (c.id = fs.company_id)).map fun c =>
      ⟨c.ticker, c.name, fs.fiscal_date_ending, fs.metric_name,
        fs.metric_value⟩

/-- The pivot index `(ticker, company_name, fiscal_date_ending)` of
`src/dashboard.py:16-20`. -/
def pivotKey (r : LongRow) : String × String × String :=
  (r.ticker, r.company_name, r.fiscal_date_ending)

/-- All long-row values feeding one pivot cell: rows with the given index
key and metric-name column. -/
def cellValues (rows : List LongRow) (k : String × String × String)
    (metric : String) : List Int :=
  (rows.filter fun r =>
    decide (pivotKey r = k) && decide (r.metric_name = metric)).map
    fun r => r.metric_value

/-- One cell of `pivot_table` (`src/dashboard.py:16-20`): the default
`aggfunc` is the arithmetic mean of the contributing values; a combination
with no values is `NaN`, which line 43's `fillna(0)` turns into `0`. -/
def pivotValue (rows : List LongRow) (k : String × String × String)
    (metric : String) : ℚ :=
  let vs := cellValues rows k metric
  if vs.length = 0 then 0
  else ((vs.map fun v => (v : ℚ)).sum) / (vs.length : ℚ)

/-- One row of the wide dataframe built by `load_data`
(`src/dashboard.py:26-35`): the six required metric columns, absent metrics
already defaulted to `0`. -/
structure WideRow where
  ticker : String
  company_name : String
  fiscal_date_ending : String
  totalRevenue : ℚ
  grossProfit : ℚ
  operatingIncome : ℚ
  netIncome : ℚ
  totalCurrentAssets : ℚ
  totalCurrentLiabilities : ℚ
deriving DecidableEq, Repr

/-- The `sort_values(by=['ticker', 'fiscal_date_ending'])` order of
`src/dashboard.py:39`: ticker first, then period-end date, ascending. -/
def wideLe (a b : WideRow) : Prop :=
  pyLt a.ticker b.ticker ∨
    (a.ticker = b.ticker ∧ pyLe a.fiscal_date_ending b.fiscal_date_ending)

instance : DecidableRel wideLe := fun a b => by
  unfold wideLe pyLt pyLe; infer_instance

instance : IsTotal WideRow wideLe := by
  constructor
  intro a b
  rcases lt_trichotomy a.ticker.data b.ticker.data with h | h | h
  · exact Or.inl (Or.inl h)
  · have he : a.ticker = b.ticker := String.ext h
    rcases le_total a.fiscal_date_ending.data b.fiscal_date_ending.data
      with h2 | h2
    · exact Or.inl (Or.inr ⟨he, h2⟩)
    · exact Or.inr (Or.inr ⟨he.symm, h2⟩)
  · exact Or.inr (Or.inl h)

instance : IsTrans WideRow wideLe := by
  constructor
  intro a b c hab hbc
  rcases hab with hab | ⟨hab, hab2⟩
  · rcases hbc with hbc | ⟨hbc, _⟩
    · exact Or.inl (lt_trans hab hbc)
    · refine Or.inl ?_
      show a.ticker.data < c.ticker.data
      rw [← hbc]; exact hab
  · rcases hbc with hbc | ⟨hbc, hbc2⟩
    · refine Or.inl ?_
      show a.ticker.data < c.ticker.data
      rw [hab]; exact hbc
    · exact Or.inr ⟨hab.trans hbc, le_trans hab2 hbc2⟩

/-- Model of `load_data` (`src/dashboard.py:7-45`) modulo file reading: pivot the long
rows to wide form (one row per distinct index key, required metrics filled
from the pivot, missing combinations already `0`), then sort by ticker and
period-end date ascending. -/
def loadData (rows : List LongRow) : List WideRow :=
  let keys := (rows.map pivotKey).dedup
  let wide := keys.map fun k =>
    ⟨k.1, k.2.1, k.2.2,
      pivotValue rows k "totalRevenue",
      pivotValue rows k "grossProfit",
      pivotValue rows k "operatingIncome",
      pivotValue rows k "netIncome",
      pivotValue rows k "totalCurrentAssets",
      pivotValue rows k "totalCurrentLiabilities"⟩
  List.insertionSort wideLe wide

/-- The `1e-9` epsilon of `src/dashboard.py:52-53`, over `ℚ`. -/
def eps : ℚ := 1 / 10 ^ 9

/-- Zero replacement `.replace(0, 1e-9)` on a denominator column (`src/dashboard.py:52-53`). -/
def adjDenom (x : ℚ) : ℚ := if x = 0 then eps else x

/-- The per-row ratio computations of `calculate_metrics`
(`src/dashboard.py:52-61`), after epsilon substitution of the zero
denominators. -/
structure MetricsRow where
  gross_margin_pct : ℚ
  operating_margin_pct : ℚ
  net_margin_pct : ℚ
  current_ratio : ℚ
deriving DecidableEq, Repr

/-- Margins and current ratio for one wide row (`src/dashboard.py:52-61`). -/
def calcRow (w : WideRow) : MetricsRow :=
  let rev := adjDenom w.totalRevenue
  let liab := adjDenom w.totalCurrentLiabilities
  ⟨w.grossProfit / rev * 100,
    w.operatingIncome / rev * 100,
    w.netIncome / rev * 100,
    w.totalCurrentAssets / liab⟩

/-- The column `groupby('ticker')['totalRevenue'].pct_change() * 100`
(`src/dashboard.py:64`) on the epsilon-adjusted revenue column: for each row,
the previous row of the same ticker group in dataframe order, `none` (pandas
`NaN`, displayed as `"N/A"` by `src/dashboard.py:107-108`) when the group has
no previous row.  `seen` accumulates already-processed rows, most recent
first. -/
def growthSeriesAux (seen : List WideRow) :
    List WideRow → List (Option ℚ)
  | [] => []
  | w :: ws =>
    let cur := adjDenom w.totalRevenue
    let g := match seen.find? fun x => decide (x.ticker = w.ticker) with
      | some p => some ((cur / adjDenom p.totalRevenue - 1) * 100)
      | none => none
    g :: growthSeriesAux (w :: seen) ws

/-- The full growth column for a wide dataframe. -/
def growthSeries (df : List WideRow) : List (Option ℚ) :=
  growthSeriesAux [] df

/-! Concrete inputs used by the per-claim witness theorems. -/

/-- The bound `fields per period`: the largest field count among the
supplied reports. -/
def maxFields (reports : List Report) : Nat :=
  (reports.map List.length).foldr max 0

/-- An income-statement record, for concrete witnesses. -/
def wRec1 : StatementRecord := ⟨1, "INCOME_STATEMENT", "2023-12-31", "totalRevenue", 1000⟩

/-- A second record sharing no key with `wRec1`. -/
def wRec2 : StatementRecord := ⟨1, "INCOME_STATEMENT", "2023-12-31", "netIncome", 100⟩

/-- A record with the same uniqueness key as `wRec1` but another value. -/
def wRec1' : StatementRecord := ⟨1, "INCOME_STATEMENT", "2023-12-31", "totalRevenue", 999⟩

/-- A two-field report used in the C4 witness. -/
def c4Report (d v : String) : Report :=
  [("fiscalDateEnding", JVal.str d), ("totalRevenue", JVal.str v)]

/-- Four annual reports, out of order, for the C4 witness. -/
def c4Reports : List Report :=
  [c4Report "2020-12-31" "10", c4Report "2023-12-31" "40",
   c4Report "2021-12-31" "20", c4Report "2022-12-31" "30"]

/-- The C4 witness payload. -/
def c4Payload : Payload := ⟨none, none, some c4Reports⟩

/-- The reports of `c4Reports` paired with their extracted sort keys. -/
def c4Keyed : List (String × Report) :=
  [("2020-12-31", c4Report "2020-12-31" "10"),
   ("2023-12-31", c4Report "2023-12-31" "40"),
   ("2021-12-31", c4Report "2021-12-31" "20"),
   ("2022-12-31", c4Report "2022-12-31" "30")]

/-- The records `normalize` produces for `c4Payload`: only the three most
recent periods, newest first. -/
def c4Recs : List StatementRecord :=
  [⟨1, "INCOME_STATEMENT", "2023-12-31", "totalRevenue", 40⟩,
   ⟨1, "INCOME_STATEMENT", "2022-12-31", "totalRevenue", 30⟩,
   ⟨1, "INCOME_STATEMENT", "2021-12-31", "totalRevenue", 20⟩]

/-- A report with one good metric and three malformed fields, for the C5
witness. -/
def c5Report : Report :=
  [("fiscalDateEnding", JVal.str "2023-12-31"),
   ("totalRevenue", JVal.str "1000"),
   ("badMetric", JVal.str "abc"),
   ("nullMetric", JVal.null),
   ("noneMetric", JVal.str "None")]

/-- The C5 witness payload. -/
def c5Payload : Payload := ⟨none, none, some [c5Report]⟩

/-- A report lacking `fiscalDateEnding`, for C10. -/
def c10Bad : Report := [("totalRevenue", JVal.str "5")]

/-- A well-formed sibling report, for C10. -/
def c10Good : Report :=
  [("fiscalDateEnding", JVal.str "2023-12-31"), ("totalRevenue", JVal.str "7")]

/-- The C10 payload: the reports collection is present, but one report has
no period-end date. -/
def c10Payload : Payload := ⟨none, none, some [c10Bad, c10Good]⟩

/-- A throttled response body, carrying the frequency-limit phrase. -/
def throttlePayload : Payload :=
  ⟨some "Our standard API call frequency is 25 requests per day.",
    none, none⟩

/-- A retry oracle whose refetch also fails with a non-2xx response. -/
def c6Fetch : String → Nat → Option Payload := fun _ _ => none

/-- The payload every successful fetch returns in the C2 counterexample. -/
def c2Good : Payload := ⟨none, none, some [c10Good]⟩

/-- Fetch oracle for the C2 counterexample: the income-statement fetch for
entity "ST" gets a non-2xx response (so `raise_for_status` raises);
every other fetch succeeds with a normal report. -/
def c2Fetch (t k : String) : Nat → Option Payload := fun _ =>
  if t = "ST" ∧ k = "INCOME_STATEMENT" then none else some c2Good

/-- Long rows for the C7 witness: two periods of one entity, out of order,
and one period of a second entity. -/
def c7Rows : List LongRow :=
  [⟨"TEL", "TE Connectivity", "2023-12-31", "totalRevenue", 1100⟩,
   ⟨"TEL", "TE Connectivity", "2022-12-31", "totalRevenue", 1000⟩,
   ⟨"DD", "DuPont", "2023-12-31", "totalRevenue", 500⟩]

/-! Lemmas about the upsert store. -/

lemma upsert_nil (s : List StatementRecord) : upsert s [] = s := rfl

lemma upsert_cons (s : List StatementRecord) (r : StatementRecord)
    (rs : List StatementRecord) :
    upsert s (r :: rs) =
      upsert (if keyOf r ∈ s.map keyOf then s else s ++ [r]) rs := rfl

/-- The upsert never removes a key already present in the table. -/
lemma mem_keys_upsert (rs : List StatementRecord) {s : List StatementRecord}
    {k : Nat × String × String × String} (h : k ∈ s.map keyOf) :
    k ∈ (upsert s rs).map keyOf := by
  induction rs generalizing s with
  | nil => exact h
  | cons r rs ih =>
    rw [upsert_cons]
    by_cases hc : keyOf r ∈ s.map keyOf
    · rw [if_pos hc]; exact ih h
    · rw [if_neg hc]
      exact ih (by rw [List.map_append]; exact List.mem_append_left _ h)

/-- After the batch is processed, every incoming record's key is present. -/
lemma self_mem_keys_upsert (rs : List StatementRecord)
    (s : List StatementRecord) :
    ∀ r ∈ rs, keyOf r ∈ (upsert s rs).map keyOf := by
  induction rs generalizing s with
  | nil => intro r hr; cases hr
  | cons r0 rs ih =>
    intro r hr
    rw [upsert_cons]
    rcases List.mem_cons.mp hr with rfl | hr
    · by_cases hc : keyOf r ∈ s.map keyOf
      · rw [if_pos hc]; exact mem_keys_upsert rs hc
      · rw [if_neg hc]
        refine mem_keys_upsert rs ?_
        rw [List.map_append]
        exact List.mem_append_right _ (by simp)
    · exact ih _ r hr

/-- A batch all of whose keys are already stored is a complete no-op. -/
lemma upsert_eq_of_keys_mem {s rs : List StatementRecord}
    (h : ∀ r ∈ rs, keyOf r ∈ s.map keyOf) : upsert s rs = s := by
  induction rs generalizing s with
  | nil => rfl
  | cons r0 rs ih =>
    rw [upsert_cons, if_pos (h r0 (by simp))]
    exact ih fun r hr => h r (by simp [hr])

/-- The upsert preserves key uniqueness of the table. -/
lemma nodup_keys_upsert (rs : List StatementRecord) {s : List StatementRecord}
    (h : (s.map keyOf).Nodup) : ((upsert s rs).map keyOf).Nodup := by
  induction rs generalizing s with
  | nil => exact h
  | cons r rs ih =>
    rw [upsert_cons]
    by_cases hc : keyOf r ∈ s.map keyOf
    · rw [if_pos hc]; exact ih h
    · rw [if_neg hc]
      refine ih ?_
      rw [List.map_append]
      refine List.nodup_append.mpr ⟨h, by simp, ?_⟩
      intro k hk hk'
      simp only [List.map_cons, List.map_nil, List.mem_singleton] at hk'
      exact hc (hk' ▸ hk)

/-- A stored key's row is untouched by any later batch. -/
lemma findByKey_upsert (rs : List StatementRecord) {s : List StatementRecord}
    {k : Nat × String × String × String} (h : (findByKey s k).isSome) :
    findByKey (upsert s rs) k = findByKey s k := by
  induction rs generalizing s with
  | nil => rfl
  | cons r rs ih =>
    rw [upsert_cons]
    by_cases hc : keyOf r ∈ s.map keyOf
    · rw [if_pos hc]; exact ih h
    · rw [if_neg hc]
      have happ : findByKey (s ++ [r]) k = findByKey s k := by
        obtain ⟨v, hv⟩ := Option.isSome_iff_exists.mp h
        rw [findByKey] at hv
        simp [findByKey, List.find?_append, hv]
      rw [ih (s := s ++ [r]) (by rw [happ]; exact h), happ]

/-! Lemmas about normalization. -/

lemma except_bind_ok {ε α β : Type} (a : α) (f : α → Except ε β) :
    (Except.ok a >>= f) = f a := rfl

/-- Every record built from one retained report carries that report's
period-end date. -/
lemma fiscal_date_of_mem_normalizeReport {cid : Nat} {st d : String}
    {r : Report} {rec : StatementRecord}
    (h : rec ∈ normalizeReport cid st d r) : rec.fiscal_date_ending = d := by
  simp only [normalizeReport, List.mem_filterMap] at h
  obtain ⟨kv, _, hkv⟩ := h
  split at hkv
  · exact absurd hkv (by simp)
  · split at hkv
    · exact absurd hkv (by simp)
    · split at hkv
      · exact absurd hkv (by simp)
      · split at hkv
        · cases hkv; rfl
        · exact absurd hkv (by simp)

/-- Reduction of `normalize` when the reports collection is present and all
sort keys extract successfully. -/
lemma normalize_ok_eq {cid : Nat} {st : String} {payload : Payload}
    {reports : List Report} {keyed : List (String × Report)}
    (hp : payload.annualReports? = some reports)
    (hk : reports.mapM keyReport = Except.ok keyed) :
    normalize cid st payload =
      Except.ok ((retainReports keyed).flatMap fun dr =>
        normalizeReport cid st dr.1 dr.2) := by
  unfold normalize
  rw [hp]
  dsimp only
  rw [hk]

/-- When every report carries a string `fiscalDateEnding`, the sort-key
extraction over the whole collection succeeds and pairs each report with
its date. -/
lemma mapM_keyReport_ok {reports : List Report}
    (h : ∀ r ∈ reports, ∃ d, r.lookup "fiscalDateEnding" = some (JVal.str d)) :
    ∃ keyed, reports.mapM keyReport = Except.ok keyed ∧
      keyed.map Prod.snd = reports := by
  induction reports with
  | nil => exact ⟨[], rfl, rfl⟩
  | cons r rs ih =>
    obtain ⟨d, hd⟩ := h r (by simp)
    obtain ⟨keyed, hk, hsnd⟩ := ih fun x hx => h x (by simp [hx])
    refine ⟨(d, r) :: keyed, ?_, by simp [hsnd]⟩
    rw [List.mapM_cons]
    have hr : keyReport r = Except.ok (d, r) := by
      simp only [keyReport, getDate, hd]
      rfl
    rw [hr, except_bind_ok, hk, except_bind_ok]
    rfl

lemma le_maxFields {reports : List Report} {r : Report} (h : r ∈ reports) :
    r.length ≤ maxFields reports := by
  induction reports with
  | nil => cases h
  | cons x xs ih =>
    rcases List.mem_cons.mp h with rfl | h
    · exact le_max_left _ _
    · exact le_trans (ih h) (le_max_right _ _)

lemma flatMap_length_le {α β : Type} (l : List α) (f : α → List β) (m : Nat)
    (h : ∀ x ∈ l, (f x).length ≤ m) : (l.flatMap f).length ≤ l.length * m := by
  induction l with
  | nil => simp
  | cons x xs ih =>
    simp only [List.flatMap_cons, List.length_append, List.length_cons]
    calc (f x).length + (xs.flatMap f).length
        ≤ m + xs.length * m := by
          exact Nat.add_le_add (h x (by simp)) (ih fun y hy => h y (by simp [hy]))
      _ = (xs.length + 1) * m := by ring

/-! Theorems for the claims. -/

/-- C1.  The upsert is idempotent: running the same batch of normalized
records a second time leaves the stored rows (hence the row count) exactly
as after the first run, and — starting from a table whose uniqueness keys
are distinct — no (entity, statement kind, period, metric name) key is ever
stored twice. -/
theorem upsert_idempotent_and_unique (s rs : List StatementRecord)
    (h : (s.map keyOf).Nodup) :
    upsert (upsert s rs) rs = upsert s rs ∧
      ((upsert s rs).map keyOf).Nodup := by
  constructor
  · exact upsert_eq_of_keys_mem fun r hr => self_mem_keys_upsert rs s r hr
  · exact nodup_keys_upsert rs h

/-- Witness for C1 at a concrete batch. -/
theorem upsert_idempotent_and_unique_witness :
    upsert (upsert [] [wRec1, wRec2]) [wRec1, wRec2] = upsert [] [wRec1, wRec2] ∧
      ((upsert [] [wRec1, wRec2]).map keyOf).Nodup :=
  upsert_idempotent_and_unique [] [wRec1, wRec2] (by simp)

/-- C4.  For a payload carrying an `annualReports` collection whose sort
keys all extract, normalization keeps at most 3 periods; the kept reports
are ordered by period-end date descending; every discarded report's date is
at most every kept report's date (so exactly the most recent ones are
kept); and every produced record's period is one of the kept periods. -/
theorem normalize_retains_three_most_recent (cid : Nat) (st : String)
    (payload : Payload) (reports : List Report)
    (keyed : List (String × Report)) (recs : List StatementRecord)
    (hp : payload.annualReports? = some reports)
    (hk : reports.mapM keyReport = Except.ok keyed)
    (hn : normalize cid st payload = Except.ok recs) :
    (retainReports keyed).length ≤ 3 ∧
      List.Pairwise dateDesc (retainReports keyed) ∧
      (∀ dp ∈ (List.insertionSort dateDesc keyed).drop 3,
        ∀ kp ∈ retainReports keyed, pyLe dp.1 kp.1) ∧
      (∀ rec ∈ recs,
        rec.fiscal_date_ending ∈ (retainReports keyed).map Prod.fst) := by
  have hsorted := List.sorted_insertionSort dateDesc keyed
  refine ⟨?_, ?_, ?_, ?_⟩
  · rw [retainReports, List.length_take]; exact min_le_left _ _
  · exact List.Pairwise.sublist (List.take_sublist 3 _) hsorted
  · intro dp hdp kp hkp
    exact hsorted.rel_of_mem_take_of_mem_drop hkp hdp
  · intro rec hrec
    have he := Except.ok.inj ((normalize_ok_eq hp hk).symm.trans hn)
    rw [← he] at hrec
    obtain ⟨dr, hdr, hmem⟩ := List.mem_flatMap.mp hrec
    exact List.mem_map.mpr
      ⟨dr, hdr, (fiscal_date_of_mem_normalizeReport hmem).symm⟩

/-- Witness for C4: four supplied periods, the oldest one discarded. -/
theorem normalize_retains_three_most_recent_witness :
    (retainReports c4Keyed).length ≤ 3 ∧
      List.Pairwise dateDesc (retainReports c4Keyed) ∧
      (∀ dp ∈ (List.insertionSort dateDesc c4Keyed).drop 3,
        ∀ kp ∈ retainReports c4Keyed, pyLe dp.1 kp.1) ∧
      (∀ rec ∈ c4Recs,
        rec.fiscal_date_ending ∈ (retainReports c4Keyed).map Prod.fst) :=
  normalize_retains_three_most_recent 1 "INCOME_STATEMENT" c4Payload
    c4Reports c4Keyed c4Recs rfl (by rfl) (by rfl)

/-- C5.  When every supplied report carries its period-end date,
normalization never raises on a malformed individual field: it returns a
record sequence whose length is at most (periods retained × fields per
period), and any well-formed field of a retained period still yields its
record no matter which sibling fields are null, the `"None"` sentinel, or
uncoercible. -/
theorem normalize_never_raises_on_fields (cid : Nat) (st : String)
    (payload : Payload) (reports : List Report)
    (hp : payload.annualReports? = some reports)
    (hdates : ∀ r ∈ reports,
      ∃ d, r.lookup "fiscalDateEnding" = some (JVal.str d)) :
    ∃ keyed recs,
      reports.mapM keyReport = Except.ok keyed ∧
      normalize cid st payload = Except.ok recs ∧
      recs.length ≤ (retainReports keyed).length * maxFields reports ∧
      (retainReports keyed).length ≤ 3 ∧
      (∀ dr ∈ retainReports keyed, ∀ kv ∈ dr.2,
        kv.1 ≠ "fiscalDateEnding" → kv.2 ≠ JVal.null →
        kv.2 ≠ JVal.str "None" → ∀ n, coerceInt kv.2 = some n →
          StatementRecord.mk cid st dr.1 kv.1 n ∈ recs) := by
  obtain ⟨keyed, hk, hsnd⟩ := mapM_keyReport_ok hdates
  refine ⟨keyed, _, hk, normalize_ok_eq hp hk, ?_, ?_, ?_⟩
  · refine flatMap_length_le _ _ _ ?_
    intro dr hdr
    refine le_trans (List.length_filterMap_le _ _) ?_
    have h1 : dr ∈ keyed :=
      (List.mem_insertionSort dateDesc).mp ((List.take_sublist 3 _).subset hdr)
    exact le_maxFields (by rw [← hsnd]; exact List.mem_map_of_mem Prod.snd h1)
  · rw [retainReports, List.length_take]; exact min_le_left _ _
  · intro dr hdr kv hkv h1 h2 h3 n hc
    refine List.mem_flatMap.mpr ⟨dr, hdr, List.mem_filterMap.mpr ⟨kv, hkv, ?_⟩⟩
    rw [if_neg h1, if_neg h2, if_neg h3, hc]

/-- Witness for C5: three malformed fields are dropped one by one while the
good sibling field is still normalized and nothing raises. -/
theorem normalize_never_raises_on_fields_witness :
    ∃ keyed recs,
      [c5Report].mapM keyReport = Except.ok keyed ∧
      normalize 1 "INCOME_STATEMENT" c5Payload = Except.ok recs ∧
      recs.length ≤ (retainReports keyed).length * maxFields [c5Report] ∧
      (retainReports keyed).length ≤ 3 ∧
      (∀ dr ∈ retainReports keyed, ∀ kv ∈ dr.2,
        kv.1 ≠ "fiscalDateEnding" → kv.2 ≠ JVal.null →
        kv.2 ≠ JVal.str "None" → ∀ n, coerceInt kv.2 = some n →
          StatementRecord.mk 1 "INCOME_STATEMENT" dr.1 kv.1 n ∈ recs) :=
  normalize_never_raises_on_fields 1 "INCOME_STATEMENT" c5Payload [c5Report]
    rfl (by
      intro r hr
      rcases List.mem_singleton.mp hr with rfl
      exact ⟨"2023-12-31", rfl⟩)

/-- C10.  On a payload that does contain `annualReports` but in which one
report lacks `fiscalDateEnding`, normalization raises a `KeyError` (from
the sort-key extraction) instead of dropping that report: no records are
returned even though the remaining report alone would normalize to a
non-empty record list. -/
theorem normalize_raises_on_missing_date :
    c10Payload.annualReports?.isSome = true ∧
    normalize 1 "INCOME_STATEMENT" c10Payload =
      Except.error NormError.keyError ∧
    normalize 1 "INCOME_STATEMENT" (Payload.mk none none (some [c10Good])) =
      Except.ok [⟨1, "INCOME_STATEMENT", "2023-12-31", "totalRevenue", 7⟩] :=
  ⟨rfl, rfl, by rfl⟩

/-- C3.  First-write-wins: whenever some row is already stored under a
uniqueness key, upserting any later batch — in particular one carrying the
same key with a different value — leaves the row stored under that key
unchanged; the conflict is a no-op, never an error (the upsert is a total
function) and never an overwrite. -/
theorem upsert_first_write_wins (s rs : List StatementRecord)
    (k : Nat × String × String × String) (h : (findByKey s k).isSome) :
    findByKey (upsert s rs) k = findByKey s k :=
  findByKey_upsert rs h

/-- Witness for C3: a later arrival with the key of `wRec1` and a different
value (`wRec1'`) leaves the stored row — hence its value 1000 — unchanged. -/
theorem upsert_first_write_wins_witness :
    findByKey (upsert [wRec1] [wRec1']) (keyOf wRec1) = findByKey [wRec1] (keyOf wRec1) ∧
      findByKey (upsert [wRec1] [wRec1']) (keyOf wRec1) = some wRec1 ∧
      wRec1'.metric_value ≠ wRec1.metric_value := by
  refine ⟨upsert_first_write_wins [wRec1] [wRec1'] (keyOf wRec1) (by decide), by decide, by decide⟩

/-- Error values short-circuit monadic sequencing in `Except`. -/
lemma except_bind_error {ε α β : Type} (e : ε) (f : α → Except ε β) :
    (Except.error e >>= f) = Except.error e := rfl

/-- C6.  The throttle signal (an `Information` field containing the
frequency-limit phrase) triggers exactly one retry of the same call, after
one 60-second cooldown, before surfacing failure for that step: without the
signal the statement step never consults the retry fetch; with it, the step
depends only on the single attempt-1 refetch (so a throttled refetch is
never retried again), and a failing refetch surfaces as the step's
`FetchFailure`. -/
theorem throttle_retry_exactly_once (f g : String → Nat → Option Payload)
    (cid : Nat) (t : String) (acc : List StatementRecord × Nat)
    (k : String) (d0 : Payload) :
    (isThrottle d0 = false →
      stepStatement f cid t acc (k, d0) = stepStatement g cid t acc (k, d0)) ∧
    (f k 1 = g k 1 →
      stepStatement f cid t acc (k, d0) = stepStatement g cid t acc (k, d0)) ∧
    (isThrottle d0 = true → f k 1 = none →
      stepStatement f cid t acc (k, d0) =
        Except.error (RunError.fetchFailure t k)) ∧
    (isThrottle d0 = true → (throttleStep d0 (f k 1)).2 = [60]) ∧
    (isThrottle d0 = false → (throttleStep d0 (f k 1)).2 = []) := by
  refine ⟨?_, ?_, ?_, ?_, ?_⟩
  · intro h; simp only [stepStatement, throttleStep, h, Bool.false_eq_true,
      if_false]
  · intro h; simp only [stepStatement, h]
  · intro h1 h2
    simp only [stepStatement, throttleStep, h1, if_true, h2]
    rfl
  · intro h; simp only [throttleStep, h, if_true]
  · intro h; simp only [throttleStep, h, Bool.false_eq_true, if_false]

/-- Witness for C6: on a throttled first body whose single retry raises,
the step performs the one 60-second cooldown and surfaces the failure. -/
theorem throttle_retry_exactly_once_witness :
    stepStatement c6Fetch 1 "TEL" ([], 0) ("INCOME_STATEMENT", throttlePayload) =
      Except.error (RunError.fetchFailure "TEL" "INCOME_STATEMENT") ∧
    (throttleStep throttlePayload (c6Fetch "INCOME_STATEMENT" 1)).2 = [60] :=
  ⟨(throttle_retry_exactly_once c6Fetch c6Fetch 1 "TEL" ([], 0)
      "INCOME_STATEMENT" throttlePayload).2.2.1 (by decide) rfl,
    (throttle_retry_exactly_once c6Fetch c6Fetch 1 "TEL" ([], 0)
      "INCOME_STATEMENT" throttlePayload).2.2.2.1 (by decide)⟩

/-- C2 counterexample.  With entities `TEL`, `ST`, `DD` and a single
non-2xx failure on `ST`'s income statement, the whole run aborts with that
entity's `FetchFailure`: no result store exists, so neither `ST`'s
remaining statement kinds nor the later entity `DD` are processed — even
though `DD`'s payload would have normalized to a non-empty record list.
This refutes the claim that the pipeline continues with the next statement
kind and the remaining entities. -/
theorem run_not_resilient_to_fetch_failure :
    runPipeline c2Fetch [(1, "TEL"), (2, "ST"), (3, "DD")] =
      Except.error (RunError.fetchFailure "ST" "INCOME_STATEMENT") ∧
    normalize 3 "INCOME_STATEMENT" c2Good =
      Except.ok [⟨3, "INCOME_STATEMENT", "2023-12-31", "totalRevenue", 7⟩] :=
  ⟨by rfl, by rfl⟩

/-- C2 amended.  A non-2xx failure on the first statement fetch of any
entity propagates out of the per-entity loop uncaught: the run terminates
immediately with that `FetchFailure`, whatever entities remain. -/
theorem run_aborts_on_fetch_failure
    (fetch : String → String → Nat → Option Payload) (cid : Nat)
    (t : String) (rest : List (Nat × String))
    (h : fetch t "INCOME_STATEMENT" 0 = none) :
    runPipeline fetch ((cid, t) :: rest) =
      Except.error (RunError.fetchFailure t "INCOME_STATEMENT") := by
  have hp : processCompany (fetch t) cid t ([] : List StatementRecord) =
      Except.error (RunError.fetchFailure t "INCOME_STATEMENT") := by
    rw [processCompany, statementKinds, List.mapM_cons]
    simp only [h, except_bind_error, except_bind_ok]
    rfl
  rw [runPipeline, List.foldlM_cons]
  simp only [hp, except_bind_error]

/-- Witness for the amended C2 theorem. -/
theorem run_aborts_on_fetch_failure_witness :
    runPipeline (fun _ _ _ => none) [(1, "TEL")] =
      Except.error (RunError.fetchFailure "TEL" "INCOME_STATEMENT") :=
  run_aborts_on_fetch_failure (fun _ _ _ => none) 1 "TEL" [] rfl

/-- In the growth column, the first dataframe row of any ticker group —
one with no same-ticker row before it — gets `none` (pandas `NaN`). -/
lemma growthSeriesAux_head_filter_none (t : String) :
    ∀ (ws seen : List WideRow), (∀ x ∈ seen, x.ticker ≠ t) →
      ∀ p ∈ (((ws.zip (growthSeriesAux seen ws)).filter
          fun p => decide (p.1.ticker = t)).head?), p.2 = none := by
  intro ws
  induction ws with
  | nil =>
    intro seen hseen p hp
    simp [growthSeriesAux] at hp
  | cons w ws ih =>
    intro seen hseen p hp
    by_cases hw : w.ticker = t
    · have hfind : (seen.find? fun x => decide (x.ticker = t)) = none := by
        refine List.find?_eq_none.mpr fun x hx => ?_
        simp only [decide_eq_true_eq]
        exact hseen x hx
      simp [growthSeriesAux, hfind, hw] at hp
      rw [← hp]
    · have hnext : ∀ x ∈ w :: seen, x.ticker ≠ t := by
        intro x hx
        rcases List.mem_cons.mp hx with rfl | hx
        · exact hw
        · exact hseen x hx
      refine ih (w :: seen) hnext p ?_
      simpa [growthSeriesAux, hw] using hp

/-- C7.  The wide dataframe built by `load_data` is sorted so that each
entity's rows appear in period-ascending order, and the year-over-year
revenue growth of the first row of every entity's series is the
"not available" marker (`none`, pandas `NaN`, displayed as `"N/A"`), not a
number. -/
theorem loadData_sorted_and_first_growth_na (rows : List LongRow)
    (t : String) :
    List.Pairwise
      (fun a b : WideRow => pyLe a.fiscal_date_ending b.fiscal_date_ending)
      ((loadData rows).filter fun w => decide (w.ticker = t)) ∧
    ∀ p ∈ ((((loadData rows).zip (growthSeries (loadData rows))).filter
        fun p => decide (p.1.ticker = t)).head?), p.2 = none := by
  constructor
  · have hs : List.Pairwise wideLe (loadData rows) := by
      rw [loadData]
      exact List.sorted_insertionSort wideLe _
    have hf : List.Pairwise wideLe
        ((loadData rows).filter fun w => decide (w.ticker = t)) :=
      List.Pairwise.sublist (List.filter_sublist _) hs
    refine List.Pairwise.imp_of_mem ?_ hf
    intro a b ha hb hab
    have hta := of_decide_eq_true (List.mem_filter.mp ha).2
    have htb := of_decide_eq_true (List.mem_filter.mp hb).2
    rcases hab with hlt | ⟨_, hle⟩
    · exact absurd hlt (by rw [hta, htb]; exact fun hh => lt_irrefl _ hh)
    · exact hle
  · exact growthSeriesAux_head_filter_none t (loadData rows) []
      (fun x hx => absurd hx (List.not_mem_nil x))

/-- Witness for C7 at a concrete dataframe and entity. -/
theorem loadData_sorted_and_first_growth_na_witness :
    List.Pairwise
      (fun a b : WideRow => pyLe a.fiscal_date_ending b.fiscal_date_ending)
      ((loadData c7Rows).filter fun w => decide (w.ticker = "TEL")) ∧
    ∀ p ∈ ((((loadData c7Rows).zip (growthSeries (loadData c7Rows))).filter
        fun p => decide (p.1.ticker = "TEL")).head?), p.2 = none :=
  loadData_sorted_and_first_growth_na c7Rows "TEL"

/-- C8.  The epsilon substitution: a revenue or current-liabilities value of
exactly 0 is replaced by the nonzero `1e-9` before division, so the
denominator of every margin and of the current ratio is never zero (no
infinite/undefined result can arise), and `currentAssets = 500` with
`currentLiabilities = 0` yields the large finite current ratio
`500 * 10^9`. -/
theorem metrics_epsilon_denominators (w : WideRow) :
    adjDenom w.totalRevenue ≠ 0 ∧
    adjDenom w.totalCurrentLiabilities ≠ 0 ∧
    (calcRow w).current_ratio =
      w.totalCurrentAssets / adjDenom w.totalCurrentLiabilities ∧
    (w.totalCurrentAssets = 500 → w.totalCurrentLiabilities = 0 →
      (calcRow w).current_ratio = 500 * 10 ^ 9) := by
  refine ⟨?_, ?_, rfl, ?_⟩
  · rw [adjDenom]; split
    · rw [eps]; norm_num
    · assumption
  · rw [adjDenom]; split
    · rw [eps]; norm_num
    · assumption
  · intro h1 h2
    simp only [calcRow, adjDenom, h1, h2, if_true, eps]
    norm_num

/-- Witness for C8: the concrete zero-liabilities row of the claim. -/
theorem metrics_epsilon_denominators_witness :
    (calcRow ⟨"TEL", "TE Connectivity", "2023-12-31",
        1000, 400, 200, 100, 500, 0⟩).current_ratio = 500 * 10 ^ 9 :=
  (metrics_epsilon_denominators ⟨"TEL", "TE Connectivity", "2023-12-31",
    1000, 400, 200, 100, 500, 0⟩).2.2.2 rfl rfl

/-- C9.  The flat export drops the statement kind, so when one
(entity, period, metric) is stored under two statement kinds with values
`v1` and `v2`, the pivot cell for that metric aggregates both long rows
with the default `pivot_table` aggfunc — the arithmetic mean
`(v1 + v2) / 2` — which (when `v1 ≠ v2`) is neither single stored value. -/
theorem pivot_mean_on_cross_kind_duplicate (cid : Nat)
    (tick name date m k1 k2 : String) (v1 v2 : Int) (_hk : k1 ≠ k2) :
    pivotValue
        (exportData [⟨cid, tick, name⟩]
          [⟨cid, k1, date, m, v1⟩, ⟨cid, k2, date, m, v2⟩])
        (tick, name, date) m = ((v1 : ℚ) + (v2 : ℚ)) / 2 ∧
    ((v1 : ℚ) ≠ (v2 : ℚ) →
      ((v1 : ℚ) + (v2 : ℚ)) / 2 ≠ (v1 : ℚ) ∧
        ((v1 : ℚ) + (v2 : ℚ)) / 2 ≠ (v2 : ℚ)) := by
  constructor
  · have he : exportData [⟨cid, tick, name⟩]
        [⟨cid, k1, date, m, v1⟩, ⟨cid, k2, date, m, v2⟩] =
        [⟨tick, name, date, m, v1⟩, ⟨tick, name, date, m, v2⟩] := by
      simp [exportData, List.filter_cons]
    rw [he]
    have hc : cellValues
        [⟨tick, name, date, m, v1⟩, ⟨tick, name, date, m, v2⟩]
        (tick, name, date) m = [v1, v2] := by
      simp [cellValues, pivotKey, List.filter_cons]
    rw [pivotValue]
    rw [hc]
    norm_num
  · intro hne
    refine ⟨fun h => hne ?_, fun h => hne ?_⟩
    · field_simp at h
      linarith
    · field_simp at h
      linarith

/-- Witness for C9: the same metric stored under the balance sheet as 100
and under the cash-flow statement as 200 pivots to 150. -/
theorem pivot_mean_on_cross_kind_duplicate_witness :
    pivotValue
        (exportData [⟨1, "TEL", "TE Connectivity"⟩]
          [⟨1, "BALANCE_SHEET", "2023-12-31", "totalDebt", 100⟩,
           ⟨1, "CASH_FLOW", "2023-12-31", "totalDebt", 200⟩])
        ("TEL", "TE Connectivity", "2023-12-31") "totalDebt" =
      ((100 : ℚ) + (200 : ℚ)) / 2 ∧
    (((100 : Int) : ℚ) ≠ ((200 : Int) : ℚ) →
      (((100 : Int) : ℚ) + ((200 : Int) : ℚ)) / 2 ≠ ((100 : Int) : ℚ) ∧
        (((100 : Int) : ℚ) + ((200 : Int) : ℚ)) / 2 ≠ ((200 : Int) : ℚ)) :=
  pivot_mean_on_cross_kind_duplicate 1 "TEL" "TE Connectivity" "2023-12-31"
    "totalDebt" "BALANCE_SHEET" "CASH_FLOW" 100 200 (by decide)

end Pipeline
